import Mathlib

/-!
# mackerel-plugin-aws-alb: a shallow embedding of `aws-alb.go`

The plugin polls CloudWatch for the statistics of one application load
balancer.  The embedding follows `aws-alb.go` function by function:

* `time.Time` values are integers, the nanoseconds elapsed since the Unix
  epoch, so `time.Unix(0, 0)` is `0` and `t.Before(u)` is `t < u`;
* `float64` values are only ever copied by the program, never computed
  with, so they are elements of an arbitrary type `V` with a zero;
* the CloudWatch service and the clock are external: they are a `World`
  acting on an explicit state `σ`, threaded through every call;
* Go maps are association lists with unique keys, `m[k] = v` being
  `mapAssign`;
* a run-time panic is the `GoResult.panic` outcome.
-/

set_option autoImplicit false

namespace AwsAlb

/-! ## Data model -/

/-- A CloudWatch dimension, `cloudwatch.Dimension`. -/
structure Dimension where
  Name : String
  Value : String
  deriving DecidableEq, Repr

/-- A catalog entry of `ListMetrics`, `cloudwatch.Metric`. -/
structure Metric where
  Dimensions : List Dimension
  MetricName : String
  Namespace : String
  deriving DecidableEq, Repr

/-- The request of `ListMetrics`. -/
structure ListMetricsRequest where
  Namespace : String
  Dimensions : List Dimension
  MetricName : String
  deriving DecidableEq, Repr

/-- One sample of `GetMetricStatistics`; the fields the program reads. -/
structure Datapoint (V : Type) where
  Timestamp : Int
  Average : V
  Sum : V
  deriving DecidableEq, Repr

/-- The request of `GetMetricStatistics`. -/
structure GetMetricStatisticsRequest where
  Dimensions : List Dimension
  StartTime : Int
  EndTime : Int
  MetricName : String
  Period : Int
  Statistics : List String
  Namespace : String
  deriving DecidableEq, Repr

/-- The aggregation kind, `type statType int`. -/
abbrev statType := Int

/-- The constant `stAve`, the first `iota`. -/
def stAve : statType := 0

/-- The constant `stSum`, the second `iota`. -/
def stSum : statType := 1

/-- The method `statType.String`. -/
def statType.String (s : statType) : String :=
  if s = stAve then "Average"
  else if s = stSum then "Sum"
  else ""

/-- The fields of `ALBPlugin` the program reads after start-up; the
CloudWatch handle is the `World` passed to each function. -/
structure ALBPlugin where
  Region : String := ""
  AccessKeyID : String := ""
  SecretAccessKey : String := ""
  AZs : List String := []
  Lbname : String := ""
  Tgname : String := ""
  deriving DecidableEq, Repr

/-- The clock and the statistics service, acting on a state `σ`. -/
structure World (σ V : Type) where
  Now : σ → Int × σ
  GetMetricStatistics :
    GetMetricStatisticsRequest → σ → Except String (List (Datapoint V)) × σ

/-- One second, `time.Second`, in nanoseconds. -/
def Second : Int := 1000000000

/-! ## `getLastPoint` -/

/-- The request `getLastPoint` builds once it has read the clock. -/
def statisticsRequest (dimensions : List Dimension) (metricName : String)
    (sTyp : statType) (now : Int) : GetMetricStatisticsRequest :=
  { Dimensions := dimensions
    StartTime := now + 120 * Second * (-1)
    EndTime := now
    MetricName := metricName
    Period := 60
    Statistics := [sTyp.String]
    Namespace := "AWS/ApplicationELB" }

/-- The body of the loop `for _, dp := range datapoints` of `getLastPoint`,
on the pair `(latest, latestVal)`. -/
def lastPointStep {V : Type} (sTyp : statType) (acc : Int × V) (dp : Datapoint V) :
    Int × V :=
  if dp.Timestamp < acc.1 then acc
  else
    (dp.Timestamp,
      if sTyp = stAve then dp.Average
      else if sTyp = stSum then dp.Sum
      else acc.2)

/-- The selection loop of `getLastPoint`, started at `time.Unix(0, 0)` and
the zero value. -/
def lastPointLoop {V : Type} [Zero V] (sTyp : statType) (datapoints : List (Datapoint V)) :
    Int × V :=
  datapoints.foldl (lastPointStep sTyp) (0, 0)

/-- The function `getLastPoint`: the value, or the error. -/
def getLastPoint {σ V : Type} [Zero V] (w : World σ V) (dimensions : List Dimension)
    (metricName : String) (sTyp : statType) (s : σ) : Except String V × σ :=
  let (now, s) := w.Now s
  let (response, s) :=
    w.GetMetricStatistics (statisticsRequest dimensions metricName sTyp now) s
  match response with
  | .error err => (.error err, s)
  | .ok datapoints =>
    if datapoints.length = 0 then (.error "fetched no datapoints", s)
    else (.ok (lastPointLoop sTyp datapoints).2, s)

/-! ## Go maps -/

/-- A Go map with string keys: an association list in which every key
occurs once; the order of the entries carries no meaning. -/
abbrev GoMap (α : Type) := List (String × α)

/-- The assignment `m[k] = v`. -/
def mapAssign {α : Type} : GoMap α → String → α → GoMap α
  | [], k, v => [(k, v)]
  | (k0, v0) :: rest, k, v =>
    if k0 = k then (k, v) :: rest else (k0, v0) :: mapAssign rest k v

/-- The lookup `m[k]`, with its presence flag. -/
def mapLookup {α : Type} : GoMap α → String → Option α
  | [], _ => none
  | (k0, v0) :: rest, k => if k0 = k then some v0 else mapLookup rest k

/-- The keys of a map. -/
def mapKeys {α : Type} (m : GoMap α) : List String := m.map Prod.fst

/-! ## `FetchMetrics` -/

/-- The function `FetchMetrics`: the map `stat` and the returned error,
which is always `nil`. -/
def FetchMetrics {σ V : Type} [Zero V] (w : World σ V) (p : ALBPlugin) (s : σ) :
    (GoMap V × Option String) × σ :=
  let stat : GoMap V := []
  -- HostCount per AZ
  let (stat, s) := p.AZs.foldl
    (fun (acc : GoMap V × σ) az =>
      let d : List Dimension := [{ Name := "AvailabilityZone", Value := az }]
      let d := if p.Lbname ≠ "" then d ++ [{ Name := "LoadBalancer", Value := p.Lbname }] else d
      let d := if p.Tgname ≠ "" then d ++ [{ Name := "TargetGroup", Value := p.Tgname }] else d
      ["HealthyHostCount", "UnHealthyHostCount"].foldl
        (fun (acc : GoMap V × σ) met =>
          match getLastPoint w d met stAve acc.2 with
          | (.ok v, s) => (mapAssign acc.1 (met ++ "_" ++ az) v, s)
          | (.error _, s) => (acc.1, s))
        acc)
    (stat, s)
  let glb : List Dimension := []
  let glb := if p.Lbname ≠ "" then glb ++ [{ Name := "LoadBalancer", Value := p.Lbname }] else glb
  let glb := if p.Tgname ≠ "" then glb ++ [{ Name := "TargetGroup", Value := p.Tgname }] else glb
  let (stat, s) :=
    match getLastPoint w glb "TargetResponseTime" stAve s with
    | (.ok v, s) => (mapAssign stat "TargetResponseTime" v, s)
    | (.error _, s) => (stat, s)
  let (stat, s) :=
    ["HTTPCode_Target_2XX_Count", "HTTPCode_Target_3XX_Count",
      "HTTPCode_Target_4XX_Count", "HTTPCode_Target_5XX_Count"].foldl
      (fun (acc : GoMap V × σ) met =>
        match getLastPoint w glb met stSum acc.2 with
        | (.ok v, s) => (mapAssign acc.1 met v, s)
        | (.error _, s) => (acc.1, s))
      (stat, s)
  ((stat, none), s)

/-! ## `GraphDefinition` -/

/-- A metric entry of a graph, `mp.Metrics`; the fields the program sets.
`Stacked` is `false` when a literal leaves it out. -/
structure Metrics where
  Name : String
  Label : String
  Stacked : Bool := false
  deriving DecidableEq, Repr

/-- A graph, `mp.Graphs`. -/
structure Graphs where
  Label : String
  Unit : String
  Metrics : List Metrics
  deriving DecidableEq, Repr

/-- The initial value of the package variable `graphdef`. -/
def graphdef : GoMap Graphs :=
  [ ("alb.targetresponsetime",
      { Label := "Whole ALB TargetResponseTime"
        Unit := "float"
        Metrics := [{ Name := "TargetResponseTime", Label := "TargetResponseTime" }] }),
    ("alb.http_target",
      { Label := "Whole ALB HTTP Target Count"
        Unit := "integer"
        Metrics :=
          [ { Name := "HTTPCode_Target_2XX_Count", Label := "2XX", Stacked := true },
            { Name := "HTTPCode_Target_3XX_Count", Label := "3XX", Stacked := true },
            { Name := "HTTPCode_Target_4XX_Count", Label := "4XX", Stacked := true },
            { Name := "HTTPCode_Target_5XX_Count", Label := "5XX", Stacked := true } ] }) ]

/-- The function `GraphDefinition`, on the current value `g` of the package
variable `graphdef`: the result is both the new value of the variable and
the returned map. -/
def GraphDefinition (p : ALBPlugin) (g : GoMap Graphs) : GoMap Graphs :=
  ["alb.healthy_host_count", "alb.unhealthy_host_count"].foldl
    (fun (g : GoMap Graphs) grp =>
      let namePre :=
        if grp = "alb.healthy_host_count" then "HealthyHostCount_"
        else if grp = "alb.unhealthy_host_count" then "UnHealthyHostCount_"
        else ""
      let label :=
        if grp = "alb.healthy_host_count" then "ALB Healthy Host Count"
        else if grp = "alb.unhealthy_host_count" then "ALB Unhealthy Host Count"
        else ""
      let metrics : List Metrics := p.AZs.foldl
        (fun metrics az => metrics ++ [{ Name := namePre ++ az, Label := az, Stacked := true }])
        []
      mapAssign g grp { Label := label, Unit := "integer", Metrics := metrics })
    g

/-! ## `prepare` -/

/-- The outcome of a Go function: it returns, or it panics. -/
inductive GoResult (α : Type) where
  | ret (a : α)
  | panic (msg : String)
  deriving DecidableEq, Repr

/-- The services `prepare` calls: the credentials lookup, the CloudWatch
client constructor and the metric catalog. -/
structure Aws where
  GetAuth : String → String → Except String Unit
  NewCloudWatch : String → Except String Unit
  ListMetrics : ListMetricsRequest → Except String (List Metric)

/-- The loop `for _, met := range ret.ListMetricsResult.Metrics` of
`prepare`, on the slice `p.AZs`. Indexing `met.Dimensions[0]` panics on an
empty slice. -/
def prepareLoop : List Metric → List String → GoResult (List String)
  | [], azs => .ret azs
  | met :: rest, azs =>
    if met.Dimensions.length > 1 then prepareLoop rest azs
    else
      match met.Dimensions[0]? with
      | none => .panic "runtime error: index out of range [0] with length 0"
      | some d0 =>
        if d0.Name ≠ "AvailabilityZone" then prepareLoop rest azs
        else prepareLoop rest (azs ++ [d0.Value])

/-- The method `prepare`: the returned error and the receiver as the call
leaves it. -/
def prepare (a : Aws) (p : ALBPlugin) : GoResult (Option String × ALBPlugin) :=
  match a.GetAuth p.AccessKeyID p.SecretAccessKey with
  | .error err => .ret (some err, p)
  | .ok _ =>
    match a.NewCloudWatch p.Region with
    | .error err => .ret (some err, p)
    | .ok _ =>
      match a.ListMetrics
          { Namespace := "AWS/ELB"
            Dimensions := [{ Name := "AvailabilityZone", Value := "" }]
            MetricName := "HealthyHostCount" } with
      | .error err => .ret (some err, p)
      | .ok metrics =>
        match prepareLoop metrics [] with
        | .panic msg => .panic msg
        | .ret azs => .ret (none, { p with AZs := azs })

/-! ## Specification vocabulary -/

/-- The datapoint `d` has the maximum timestamp of `dps` and is the last
datapoint of `dps` with that timestamp. -/
def IsLastMaximum {V : Type} (dps : List (Datapoint V)) (d : Datapoint V) : Prop :=
  ∃ before after : List (Datapoint V),
    dps = before ++ d :: after ∧
    (∀ e ∈ before, e.Timestamp ≤ d.Timestamp) ∧
    (∀ e ∈ after, e.Timestamp < d.Timestamp)

/-- A call of the statistics service as an observer sees it: the request
and the response. -/
abbrev Call (V : Type) := GetMetricStatisticsRequest × Except String (List (Datapoint V))

/-- The world `w` with a journal of the calls of the statistics service
added to its state; the clock and the service behave as in `w`. -/
def World.logged {σ V : Type} (w : World σ V) : World (σ × List (Call V)) V :=
  { Now := fun st => ((w.Now st.1).1, ((w.Now st.1).2, st.2))
    GetMetricStatistics := fun req st =>
      ((w.GetMetricStatistics req st.1).1,
        ((w.GetMetricStatistics req st.1).2,
          st.2 ++ [(req, (w.GetMetricStatistics req st.1).1)])) }

/-- A call succeeded with at least one datapoint. -/
def Call.succeeded {V : Type} (c : Call V) : Prop :=
  ∃ dps, c.2 = .ok dps ∧ dps ≠ []

/-- The key of the map `stat` a call is made for: the metric name, followed
by `_` and the zone when the first dimension of the request is the zone. -/
def Call.key {V : Type} (c : Call V) : String :=
  match c.1.Dimensions with
  | d :: _ =>
    if d.Name = "AvailabilityZone" then c.1.MetricName ++ "_" ++ d.Value
    else c.1.MetricName
  | [] => c.1.MetricName

/-- One statistic query of a polling cycle: the key it is stored under and
the arguments of `getLastPoint`. -/
structure Query where
  key : String
  dims : List Dimension
  met : String
  sTyp : statType
  deriving DecidableEq, Repr

/-- The step `v, err := p.getLastPoint(..); if err == nil { stat[key] = v }`
of `FetchMetrics`. -/
def runQuery {σ V : Type} [Zero V] (w : World σ V) (acc : GoMap V × σ) (q : Query) :
    GoMap V × σ :=
  match getLastPoint w q.dims q.met q.sTyp acc.2 with
  | (.ok v, s) => (mapAssign acc.1 q.key v, s)
  | (.error _, s) => (acc.1, s)

/-- The slice `d` that `FetchMetrics` builds for the zone `az`. -/
def zoneDims (p : ALBPlugin) (az : String) : List Dimension :=
  let d : List Dimension := [{ Name := "AvailabilityZone", Value := az }]
  let d := if p.Lbname ≠ "" then d ++ [{ Name := "LoadBalancer", Value := p.Lbname }] else d
  let d := if p.Tgname ≠ "" then d ++ [{ Name := "TargetGroup", Value := p.Tgname }] else d
  d

/-- The slice `glb` that `FetchMetrics` builds for the whole balancer. -/
def glbDims (p : ALBPlugin) : List Dimension :=
  let glb : List Dimension := []
  let glb := if p.Lbname ≠ "" then glb ++ [{ Name := "LoadBalancer", Value := p.Lbname }] else glb
  let glb := if p.Tgname ≠ "" then glb ++ [{ Name := "TargetGroup", Value := p.Tgname }] else glb
  glb

/-- The dimensions of the configured names: `LoadBalancer` when `Lbname` is
not empty, then `TargetGroup` when `Tgname` is not empty. -/
def namedDims (p : ALBPlugin) : List Dimension :=
  (if p.Lbname = "" then [] else [{ Name := "LoadBalancer", Value := p.Lbname }]) ++
  (if p.Tgname = "" then [] else [{ Name := "TargetGroup", Value := p.Tgname }])

/-- The two queries of a zone. -/
def zoneQueries (p : ALBPlugin) (az : String) : List Query :=
  [ { key := "HealthyHostCount" ++ "_" ++ az
      dims := zoneDims p az
      met := "HealthyHostCount", sTyp := stAve },
    { key := "UnHealthyHostCount" ++ "_" ++ az
      dims := zoneDims p az
      met := "UnHealthyHostCount", sTyp := stAve } ]

/-- The five queries on the whole balancer. -/
def balancerQueries (p : ALBPlugin) : List Query :=
  [ { key := "TargetResponseTime", dims := glbDims p
      met := "TargetResponseTime", sTyp := stAve },
    { key := "HTTPCode_Target_2XX_Count", dims := glbDims p
      met := "HTTPCode_Target_2XX_Count", sTyp := stSum },
    { key := "HTTPCode_Target_3XX_Count", dims := glbDims p
      met := "HTTPCode_Target_3XX_Count", sTyp := stSum },
    { key := "HTTPCode_Target_4XX_Count", dims := glbDims p
      met := "HTTPCode_Target_4XX_Count", sTyp := stSum },
    { key := "HTTPCode_Target_5XX_Count", dims := glbDims p
      met := "HTTPCode_Target_5XX_Count", sTyp := stSum } ]

/-- The queries of one polling cycle, in the order `FetchMetrics` issues
them. -/
def queryPlan (p : ALBPlugin) : List Query :=
  p.AZs.flatMap (zoneQueries p) ++ balancerQueries p

/-- The call of the statistics service that `getLastPoint` makes for the
query `q` from the state `s`. -/
def callOf {σ V : Type} (w : World σ V) (q : Query) (s : σ) : Call V :=
  (statisticsRequest q.dims q.met q.sTyp (w.Now s).1,
    (w.GetMetricStatistics (statisticsRequest q.dims q.met q.sTyp (w.Now s).1) (w.Now s).2).1)

/-- The calls of the statistics service that running the queries `qs` in
order from the state `s` makes. -/
def planCalls {σ V : Type} [Zero V] (w : World σ V) : List Query → σ → List (Call V)
  | [], _ => []
  | q :: qs, s => callOf w q s :: planCalls w qs (getLastPoint w q.dims q.met q.sTyp s).2

/-- The keys of the five metrics of the whole balancer. -/
def balancerKeys : List String :=
  ["TargetResponseTime", "HTTPCode_Target_2XX_Count", "HTTPCode_Target_3XX_Count",
    "HTTPCode_Target_4XX_Count", "HTTPCode_Target_5XX_Count"]

/-- The metric names, aggregation names and dimensions of a journal. -/
def callShapes {V : Type} (log : List (Call V)) :
    List (String × List String × List Dimension) :=
  log.map (fun c => (c.1.MetricName, c.1.Statistics, c.1.Dimensions))

/-- The name `k` is the name of a metric entry of the graph `grp` of `g`. -/
def HasMetric (g : GoMap Graphs) (grp k : String) : Prop :=
  ∃ gr, mapLookup g grp = some gr ∧ ∃ mt ∈ gr.Metrics, mt.Name = k

/-- The catalog entries zone discovery keeps: one dimension, named
`AvailabilityZone`. -/
def zoneOf (met : Metric) : Option String :=
  match met.Dimensions with
  | [d] => if d.Name = "AvailabilityZone" then some d.Value else none
  | _ => none

/-! ## Concrete inputs -/

/-- A world without state whose service answers every request with `r`
and whose clock shows `1700000000` seconds. -/
def constWorld (r : Except String (List (Datapoint Int))) : World Unit Int :=
  { Now := fun s => (1700000000 * Second, s)
    GetMetricStatistics := fun _ s => (r, s) }

/-- Three datapoints, the last two sharing the maximum timestamp. -/
def dpsTie : List (Datapoint Int) :=
  [ { Timestamp := 60, Average := 1, Sum := 10 },
    { Timestamp := 120, Average := 2, Sum := 20 },
    { Timestamp := 120, Average := 3, Sum := 30 } ]

/-- A world without state whose service fails on every request for the
metric `met` and answers every other request with `dpsTie`. -/
def worldFailingOn (met : String) : World Unit Int :=
  { Now := fun s => (1700000000 * Second, s)
    GetMetricStatistics := fun req s =>
      (if req.MetricName = met then .error "Throttling" else .ok dpsTie, s) }

/-- A datapoint stamped one nanosecond before the Unix epoch. -/
def dpBeforeEpoch : Datapoint Int := { Timestamp := -1, Average := 5, Sum := 7 }

/-- A plugin with two zones and both names configured. -/
def pluginAB : ALBPlugin :=
  { Region := "ap-northeast-1", AZs := ["a", "b"], Lbname := "app/lb/1", Tgname := "tg/1" }

/-- A catalog mixing a zone entry, a balancer entry and a combined entry. -/
def catalogMixed : List Metric :=
  [ { Dimensions := [{ Name := "AvailabilityZone", Value := "a" }]
      MetricName := "HealthyHostCount", Namespace := "AWS/ELB" },
    { Dimensions := [{ Name := "LoadBalancerName", Value := "lb" }]
      MetricName := "HealthyHostCount", Namespace := "AWS/ELB" },
    { Dimensions := [{ Name := "AvailabilityZone", Value := "b" },
                     { Name := "LoadBalancerName", Value := "lb" }]
      MetricName := "HealthyHostCount", Namespace := "AWS/ELB" },
    { Dimensions := [{ Name := "AvailabilityZone", Value := "a" }]
      MetricName := "HealthyHostCount", Namespace := "AWS/ELB" } ]

/-- A catalog with an entry that has no dimension. -/
def catalogBare : List Metric :=
  [ { Dimensions := [{ Name := "AvailabilityZone", Value := "a" }]
      MetricName := "HealthyHostCount", Namespace := "AWS/ELB" },
    { Dimensions := [], MetricName := "HealthyHostCount", Namespace := "AWS/ELB" } ]

/-- Services of `prepare` that succeed, the catalog answering `mets`. -/
def awsWith (mets : List Metric) : Aws :=
  { GetAuth := fun _ _ => .ok ()
    NewCloudWatch := fun _ => .ok ()
    ListMetrics := fun _ => .ok mets }

/-- The request `prepare` sends to the catalog. -/
def zoneRequest : ListMetricsRequest :=
  { Namespace := "AWS/ELB"
    Dimensions := [{ Name := "AvailabilityZone", Value := "" }]
    MetricName := "HealthyHostCount" }

/-- The message of the panic of `met.Dimensions[0]` on an empty slice. -/
def indexPanic : String := "runtime error: index out of range [0] with length 0"

/-- The per-zone metric entries `GraphDefinition` builds under a name
that starts with `namePre`. -/
def zoneMetrics (namePre : String) (azs : List String) : List Metrics :=
  azs.map (fun az => { Name := namePre ++ az, Label := az, Stacked := true })

/-! ## `getLastPoint`: the selection loop -/

theorem lastPointStep_fst {V : Type} (sTyp : statType) (acc : Int × V) (dp : Datapoint V) :
    (lastPointStep sTyp acc dp).1 = max acc.1 dp.Timestamp := by
  unfold lastPointStep
  split
  · rename_i h; exact (max_eq_left (le_of_lt h)).symm
  · rename_i h; exact (max_eq_right (not_lt.mp h)).symm

/-- The running timestamp bounds the start and every datapoint seen. -/
theorem foldl_lastPointStep_fst_ge {V : Type} (t : statType) (l : List (Datapoint V)) :
    ∀ acc : Int × V, (∀ e ∈ l, e.Timestamp ≤ (l.foldl (lastPointStep t) acc).1) ∧
      acc.1 ≤ (l.foldl (lastPointStep t) acc).1 := by
  induction l using List.reverseRecOn with
  | nil => intro acc; simp
  | append_singleton l y ih =>
    intro acc
    simp only [List.foldl_append, List.foldl_cons, List.foldl_nil, lastPointStep_fst]
    refine ⟨?_, le_trans (ih acc).2 (le_max_left _ _)⟩
    intro e he
    rcases List.mem_append.mp he with he | he
    · exact le_trans ((ih acc).1 e he) (le_max_left _ _)
    · simp only [List.mem_singleton] at he
      subst he
      exact le_max_right _ _

/-- The running timestamp is the start or the timestamp of a datapoint. -/
theorem foldl_lastPointStep_fst_mem {V : Type} (t : statType) (l : List (Datapoint V)) :
    ∀ acc : Int × V, (∃ e ∈ l, (l.foldl (lastPointStep t) acc).1 = e.Timestamp) ∨
      (l.foldl (lastPointStep t) acc).1 = acc.1 := by
  induction l using List.reverseRecOn with
  | nil => intro acc; right; rfl
  | append_singleton l y ih =>
    intro acc
    simp only [List.foldl_append, List.foldl_cons, List.foldl_nil, lastPointStep_fst]
    rcases le_total (l.foldl (lastPointStep t) acc).1 y.Timestamp with hle | hle
    · left; exact ⟨y, by simp, max_eq_right hle⟩
    · rw [max_eq_left hle]
      rcases ih acc with ⟨e, he, heq⟩ | heq
      · left; exact ⟨e, List.mem_append_left _ he, heq⟩
      · right; exact heq

/-- The running timestamp does not depend on the aggregation kind. -/
theorem foldl_lastPointStep_fst_eq {V : Type} (t u : statType) (l : List (Datapoint V)) :
    ∀ acc : Int × V,
      (l.foldl (lastPointStep t) acc).1 = (l.foldl (lastPointStep u) acc).1 := by
  induction l using List.reverseRecOn with
  | nil => intro acc; rfl
  | append_singleton l y ih =>
    intro acc
    simp only [List.foldl_append, List.foldl_cons, List.foldl_nil, lastPointStep_fst, ih acc]

/-- Datapoints that are all before the running timestamp leave the pair
`(latest, latestVal)` as it is. -/
theorem foldl_lastPointStep_skip {V : Type} (t : statType) (l : List (Datapoint V)) :
    ∀ acc : Int × V, (∀ e ∈ l, e.Timestamp < acc.1) →
      l.foldl (lastPointStep t) acc = acc := by
  induction l with
  | nil => intro acc _; rfl
  | cons y ys ih =>
    intro acc hall
    have hy : y.Timestamp < acc.1 := hall y (List.mem_cons_self _ _)
    simp only [List.foldl_cons, lastPointStep, hy, if_true]
    exact ih acc (fun e he => hall e (List.mem_cons_of_mem _ he))

/-- The timestamp of a last maximum bounds every timestamp of the list. -/
theorem IsLastMaximum.le {V : Type} {dps : List (Datapoint V)} {d : Datapoint V}
    (h : IsLastMaximum dps d) : ∀ e ∈ dps, e.Timestamp ≤ d.Timestamp := by
  obtain ⟨before, after, hsplit, hb, ha⟩ := h
  intro e he
  rw [hsplit] at he
  rcases List.mem_append.mp he with he | he
  · exact hb e he
  · rcases List.mem_cons.mp he with he | he
    · rw [he]
    · exact le_of_lt (ha e he)

/-- The loop, run from a pair `(latest, latestVal)` over datapoints of which
one is not before `latest`, ends on the last datapoint of the maximum
timestamp. -/
theorem foldl_lastPointStep_latest {V : Type} (dps : List (Datapoint V)) :
    ∀ (acc : Int × V), (∃ e ∈ dps, acc.1 ≤ e.Timestamp) →
      ∃ d, IsLastMaximum dps d ∧
        (dps.foldl (lastPointStep stAve) acc).2 = d.Average ∧
        (dps.foldl (lastPointStep stSum) acc).2 = d.Sum := by
  induction dps using List.reverseRecOn with
  | nil => intro acc h; obtain ⟨e, he, _⟩ := h; cases he
  | append_singleton l x ih =>
    intro acc h
    simp only [List.foldl_append, List.foldl_cons, List.foldl_nil]
    by_cases hx : x.Timestamp < (l.foldl (lastPointStep stAve) acc).1
    · -- the last datapoint is skipped: the maximum lies in `l`
      have hx2 : x.Timestamp < (l.foldl (lastPointStep stSum) acc).1 :=
        foldl_lastPointStep_fst_eq stAve stSum l acc ▸ hx
      have hl : ∃ e ∈ l, acc.1 ≤ e.Timestamp := by
        by_contra hno
        have hall : ∀ e ∈ l, e.Timestamp < acc.1 := by
          intro e he
          by_contra hge
          exact hno ⟨e, he, not_lt.mp hge⟩
        rw [foldl_lastPointStep_skip stAve l acc hall] at hx
        obtain ⟨e, he, hle⟩ := h
        rcases List.mem_append.mp he with he | he
        · exact absurd hle (not_le.mpr (hall e he))
        · simp only [List.mem_singleton] at he
          subst he
          exact absurd hle (not_le.mpr hx)
      obtain ⟨d, hd, hav, hsu⟩ := ih acc hl
      have hmax : (l.foldl (lastPointStep stAve) acc).1 ≤ d.Timestamp := by
        rcases foldl_lastPointStep_fst_mem stAve l acc with ⟨e, he, heq⟩ | heq
        · rw [heq]; exact hd.le e he
        · rw [heq]
          obtain ⟨e, he, hle⟩ := hl
          exact le_trans hle (hd.le e he)
      obtain ⟨before, after, hsplit, hb, ha⟩ := hd
      refine ⟨d, ⟨before, after ++ [x], ?_, hb, ?_⟩, ?_, ?_⟩
      · rw [hsplit]; simp
      · intro e he
        rcases List.mem_append.mp he with he | he
        · exact ha e he
        · simp only [List.mem_singleton] at he
          subst he
          exact lt_of_lt_of_le hx hmax
      · simp only [lastPointStep, hx, if_true]; exact hav
      · simp only [lastPointStep, hx2, if_true]; exact hsu
    · -- the last datapoint is taken
      have hx2 : ¬ x.Timestamp < (l.foldl (lastPointStep stSum) acc).1 :=
        foldl_lastPointStep_fst_eq stAve stSum l acc ▸ hx
      refine ⟨x, ⟨l, [], rfl, ?_, by simp⟩, ?_, ?_⟩
      · intro e he
        exact le_trans ((foldl_lastPointStep_fst_ge stAve l acc).1 e he) (not_lt.mp hx)
      · simp [lastPointStep, hx]
      · have hkind : stSum ≠ stAve := by decide
        simp [lastPointStep, hx2, hkind]

/-- The result of `getLastPoint`, from the response of the service. -/
theorem getLastPoint_fst {σ V : Type} [Zero V] (w : World σ V) (dimensions : List Dimension)
    (metricName : String) (sTyp : statType) (s : σ) :
    (getLastPoint w dimensions metricName sTyp s).1 =
      match (w.GetMetricStatistics
          (statisticsRequest dimensions metricName sTyp (w.Now s).1) (w.Now s).2).1 with
      | .error err => .error err
      | .ok datapoints =>
        if datapoints.length = 0 then .error "fetched no datapoints"
        else .ok (lastPointLoop sTyp datapoints).2 := by
  unfold getLastPoint
  simp only
  split <;> rename_i h <;> simp only [h]
  split <;> rfl

/-- The state `getLastPoint` leaves: the clock read, then the service
called. -/
theorem getLastPoint_snd {σ V : Type} [Zero V] (w : World σ V) (dimensions : List Dimension)
    (metricName : String) (sTyp : statType) (s : σ) :
    (getLastPoint w dimensions metricName sTyp s).2 =
      (w.GetMetricStatistics
          (statisticsRequest dimensions metricName sTyp (w.Now s).1) (w.Now s).2).2 := by
  unfold getLastPoint
  simp only
  split
  · rfl
  · split <;> rfl

/-- C1 (amended): when the service answers with a non-empty datapoint list
in which some timestamp is not before the Unix epoch, `getLastPoint`
returns the value (`Average` for `stAve`, `Sum` for `stSum`) of the
datapoint with the maximum timestamp, the last one in the list among those
that share it. -/
theorem latest_selected {σ V : Type} [Zero V] (w : World σ V)
    (dimensions : List Dimension) (metricName : String) (sTyp : statType) (s : σ)
    (dps : List (Datapoint V))
    (hresp : (w.GetMetricStatistics
      (statisticsRequest dimensions metricName sTyp (w.Now s).1) (w.Now s).2).1 = .ok dps)
    (hne : dps ≠ [])
    (hepoch : ∃ e ∈ dps, 0 ≤ e.Timestamp) :
    ∃ d, IsLastMaximum dps d ∧
      (sTyp = stAve → (getLastPoint w dimensions metricName sTyp s).1 = .ok d.Average) ∧
      (sTyp = stSum → (getLastPoint w dimensions metricName sTyp s).1 = .ok d.Sum) := by
  obtain ⟨d, hd, hav, hsu⟩ := foldl_lastPointStep_latest dps ((0 : Int), (0 : V)) hepoch
  have hlen : ¬ dps.length = 0 := fun h => hne (List.length_eq_zero.mp h)
  refine ⟨d, hd, ?_, ?_⟩
  · intro ht
    subst ht
    rw [getLastPoint_fst, hresp]
    simp only [hlen, if_false, lastPointLoop, hav]
  · intro ht
    subst ht
    rw [getLastPoint_fst, hresp]
    simp only [hlen, if_false, lastPointLoop, hsu]

/-- Witness of C1 (amended): three datapoints, the last two at the maximum
timestamp. -/
theorem latest_selected_witness :
    (∃ d, IsLastMaximum dpsTie d ∧
      (stSum = stAve → (getLastPoint (constWorld (.ok dpsTie)) [] "RequestCount" stSum ()).1
        = .ok d.Average) ∧
      (stSum = stSum → (getLastPoint (constWorld (.ok dpsTie)) [] "RequestCount" stSum ()).1
        = .ok d.Sum)) ∧
    (getLastPoint (constWorld (.ok dpsTie)) [] "RequestCount" stSum ()).1 = .ok 30 ∧
    (getLastPoint (constWorld (.ok dpsTie)) [] "RequestCount" stAve ()).1 = .ok 3 :=
  ⟨latest_selected (constWorld (.ok dpsTie)) [] "RequestCount" stSum () dpsTie rfl
    (by decide) ⟨{ Timestamp := 60, Average := 1, Sum := 10 }, by decide, by decide⟩,
    rfl, rfl⟩

/-- C1 as stated fails: a list whose only datapoint is stamped before the
Unix epoch has that datapoint as its latest, yet `getLastPoint` returns
neither its `Average` nor its `Sum` but the zero value. -/
theorem latest_before_epoch_counterexample :
    IsLastMaximum [dpBeforeEpoch] dpBeforeEpoch ∧
    (getLastPoint (constWorld (.ok [dpBeforeEpoch])) [] "RequestCount" stAve ()).1 = .ok 0 ∧
    (getLastPoint (constWorld (.ok [dpBeforeEpoch])) [] "RequestCount" stSum ()).1 = .ok 0 ∧
    ¬ ∃ d, IsLastMaximum [dpBeforeEpoch] d ∧
      (getLastPoint (constWorld (.ok [dpBeforeEpoch])) [] "RequestCount" stAve ()).1
        = .ok d.Average := by
  have hrun : (getLastPoint (constWorld (.ok [dpBeforeEpoch])) [] "RequestCount" stAve ()).1
      = .ok 0 := rfl
  refine ⟨⟨[], [], rfl, by simp, by simp⟩, hrun, rfl, ?_⟩
  rintro ⟨d, ⟨before, after, hsplit, _, _⟩, hval⟩
  have hd : d = dpBeforeEpoch := by
    have hmem : d ∈ [dpBeforeEpoch] := by rw [hsplit]; simp
    simpa using hmem
  subst hd
  rw [hrun] at hval
  have h05 : (0 : Int) = 5 := Except.ok.inj hval
  exact absurd h05 (by decide)

/-- C7: when the service answers with an empty datapoint list,
`getLastPoint` returns the error `fetched no datapoints`, whatever the
aggregation kind, and so no value. -/
theorem empty_is_error {σ V : Type} [Zero V] (w : World σ V)
    (dimensions : List Dimension) (metricName : String) (sTyp : statType) (s : σ)
    (hresp : (w.GetMetricStatistics
      (statisticsRequest dimensions metricName sTyp (w.Now s).1) (w.Now s).2).1 = .ok []) :
    (getLastPoint w dimensions metricName sTyp s).1 = .error "fetched no datapoints" ∧
    ∀ v, (getLastPoint w dimensions metricName sTyp s).1 ≠ .ok v := by
  rw [getLastPoint_fst, hresp]
  simp

/-- Witness of C7: a service answering with no datapoint. -/
theorem empty_is_error_witness :
    (getLastPoint (constWorld (.ok [])) [] "RequestCount" stSum ()).1
        = .error "fetched no datapoints" ∧
    ∀ v, (getLastPoint (constWorld (.ok [])) [] "RequestCount" stSum ()).1 ≠ .ok v :=
  empty_is_error (constWorld (.ok [])) [] "RequestCount" stSum () rfl

/-! ## `prepare`: zone discovery -/

/-- The loop over a catalog whose entries all have a dimension returns,
having appended the zones of the zone-only entries in order. -/
theorem prepareLoop_ret (mets : List Metric) :
    ∀ azs : List String, (∀ m ∈ mets, m.Dimensions ≠ []) →
      prepareLoop mets azs = .ret (azs ++ mets.filterMap zoneOf) := by
  induction mets with
  | nil => intro azs _; simp [prepareLoop]
  | cons met rest ih =>
    intro azs h
    have hrest : ∀ m ∈ rest, m.Dimensions ≠ [] :=
      fun m hm => h m (List.mem_cons_of_mem _ hm)
    have hmet : met.Dimensions ≠ [] := h met (List.mem_cons_self _ _)
    rcases hdim : met.Dimensions with _ | ⟨d0, _ | ⟨d1, ds⟩⟩
    · exact absurd hdim hmet
    · by_cases hname : d0.Name = "AvailabilityZone"
      · simp [prepareLoop, hdim, hname, zoneOf, ih _ hrest]
      · simp [prepareLoop, hdim, hname, zoneOf, ih _ hrest]
    · simp [prepareLoop, hdim, zoneOf, ih _ hrest]

/-- The loop over a catalog with an entry that has no dimension panics. -/
theorem prepareLoop_panic (mets : List Metric) :
    ∀ azs : List String, (∃ m ∈ mets, m.Dimensions = []) →
      prepareLoop mets azs = .panic indexPanic := by
  induction mets with
  | nil => intro azs h; obtain ⟨m, hm, _⟩ := h; cases hm
  | cons met rest ih =>
    intro azs h
    rcases hdim : met.Dimensions with _ | ⟨d0, _ | ⟨d1, ds⟩⟩
    · simp [prepareLoop, hdim, indexPanic]
    all_goals
      have hrest : ∃ m ∈ rest, m.Dimensions = [] := by
        obtain ⟨m, hm, hnil⟩ := h
        rcases List.mem_cons.mp hm with hm | hm
        · subst hm; rw [hdim] at hnil; cases hnil
        · exact ⟨m, hm, hnil⟩
    · by_cases hname : d0.Name = "AvailabilityZone"
      · simp [prepareLoop, hdim, hname, ih _ hrest]
      · simp [prepareLoop, hdim, hname, ih _ hrest]
    · simp [prepareLoop, hdim, ih _ hrest]

/-- The method `prepare` once its three services have answered. -/
theorem prepare_of_services (a : Aws) (p : ALBPlugin) (mets : List Metric)
    (hauth : a.GetAuth p.AccessKeyID p.SecretAccessKey = .ok ())
    (hcw : a.NewCloudWatch p.Region = .ok ())
    (hlist : a.ListMetrics zoneRequest = .ok mets) :
    prepare a p =
      match prepareLoop mets [] with
      | .panic msg => .panic msg
      | .ret azs => .ret (none, { p with AZs := azs }) := by
  unfold zoneRequest at hlist
  simp only [prepare, hauth, hcw, hlist]

/-- C6: when every catalog entry has at least one dimension, `prepare`
returns without error and leaves as zone list the first-dimension values
of the entries with exactly one dimension, named `AvailabilityZone`, in
the order of the catalog and with duplicates kept; the other entries add
nothing. -/
theorem discovered_zones (a : Aws) (p : ALBPlugin) (mets : List Metric)
    (hauth : a.GetAuth p.AccessKeyID p.SecretAccessKey = .ok ())
    (hcw : a.NewCloudWatch p.Region = .ok ())
    (hlist : a.ListMetrics zoneRequest = .ok mets)
    (hdims : ∀ m ∈ mets, m.Dimensions ≠ []) :
    prepare a p = .ret (none, { p with AZs := mets.filterMap zoneOf }) ∧
    prepareLoop mets [] = .ret (mets.filterMap zoneOf) := by
  have hloop : prepareLoop mets [] = .ret (mets.filterMap zoneOf) := by
    simpa using prepareLoop_ret mets [] hdims
  refine ⟨?_, hloop⟩
  rw [prepare_of_services a p mets hauth hcw hlist, hloop]

/-- Witness of C6: a catalog with a zone entry, a balancer entry, a
combined entry and the zone entry again yields the zones `a`, `a`. -/
theorem discovered_zones_witness :
    (prepare (awsWith catalogMixed) pluginAB
        = .ret (none, { pluginAB with AZs := catalogMixed.filterMap zoneOf }) ∧
      prepareLoop catalogMixed [] = .ret (catalogMixed.filterMap zoneOf)) ∧
    catalogMixed.filterMap zoneOf = ["a", "a"] :=
  ⟨discovered_zones (awsWith catalogMixed) pluginAB catalogMixed rfl rfl rfl (by decide),
    by decide⟩

/-- C9: once the services of `prepare` have answered, the zone loop panics
on the out-of-range index exactly when some catalog entry has no
dimension, and `prepare` returns exactly when every entry has one. -/
theorem bare_entry_panics (a : Aws) (p : ALBPlugin) (mets : List Metric)
    (hauth : a.GetAuth p.AccessKeyID p.SecretAccessKey = .ok ())
    (hcw : a.NewCloudWatch p.Region = .ok ())
    (hlist : a.ListMetrics zoneRequest = .ok mets) :
    (prepare a p = .panic indexPanic ↔ ∃ m ∈ mets, m.Dimensions = []) ∧
    ((∃ r, prepare a p = .ret r) ↔ ∀ m ∈ mets, m.Dimensions ≠ []) ∧
    (prepareLoop mets [] = .panic indexPanic ↔ ∃ m ∈ mets, m.Dimensions = []) := by
  rw [prepare_of_services a p mets hauth hcw hlist]
  by_cases h : ∃ m ∈ mets, m.Dimensions = []
  · have hno : ¬ ∀ m ∈ mets, m.Dimensions ≠ [] := by
      obtain ⟨m, hm, hnil⟩ := h
      exact fun hall => hall m hm hnil
    simp [prepareLoop_panic mets [] h, h, hno]
  · have hall : ∀ m ∈ mets, m.Dimensions ≠ [] :=
      fun m hm hnil => h ⟨m, hm, hnil⟩
    simp only [prepareLoop_ret mets [] hall, List.nil_append]
    exact ⟨⟨fun hp => (by cases hp), fun hp => absurd hp h⟩, ⟨fun _ => hall, fun _ => ⟨_, rfl⟩⟩,
      ⟨fun hp => (by cases hp), fun hp => absurd hp h⟩⟩

/-- Witness of C9: a catalog whose second entry has no dimension. -/
theorem bare_entry_panics_witness :
    ((prepare (awsWith catalogBare) pluginAB = .panic indexPanic
        ↔ ∃ m ∈ catalogBare, m.Dimensions = []) ∧
      ((∃ r, prepare (awsWith catalogBare) pluginAB = .ret r)
        ↔ ∀ m ∈ catalogBare, m.Dimensions ≠ []) ∧
      (prepareLoop catalogBare [] = .panic indexPanic
        ↔ ∃ m ∈ catalogBare, m.Dimensions = [])) ∧
    prepare (awsWith catalogBare) pluginAB = .panic indexPanic :=
  ⟨bare_entry_panics (awsWith catalogBare) pluginAB catalogBare rfl rfl rfl, by decide⟩

/-! ## Go maps: assignment and lookup -/

theorem mapLookup_mapAssign_self {α : Type} (m : GoMap α) (k : String) (v : α) :
    mapLookup (mapAssign m k v) k = some v := by
  induction m with
  | nil => simp [mapAssign, mapLookup]
  | cons e rest ih =>
    obtain ⟨k0, v0⟩ := e
    by_cases h : k0 = k
    · simp [mapAssign, mapLookup, h]
    · simp [mapAssign, mapLookup, h, ih]

theorem mapLookup_mapAssign_of_ne {α : Type} (m : GoMap α) (k k1 : String) (v : α)
    (hne : k ≠ k1) : mapLookup (mapAssign m k v) k1 = mapLookup m k1 := by
  induction m with
  | nil => simp [mapAssign, mapLookup, hne]
  | cons e rest ih =>
    obtain ⟨k0, v0⟩ := e
    by_cases h : k0 = k
    · subst h; simp [mapAssign, mapLookup, hne]
    · by_cases h1 : k0 = k1
      · subst h1; simp [mapAssign, mapLookup, h]
      · simp [mapAssign, mapLookup, h, h1, ih]

/-- Assigning twice to a key is assigning the second value. -/
theorem mapAssign_mapAssign_self {α : Type} (m : GoMap α) (k : String) (v v1 : α) :
    mapAssign (mapAssign m k v) k v1 = mapAssign m k v1 := by
  induction m with
  | nil => simp [mapAssign]
  | cons e rest ih =>
    obtain ⟨k0, v0⟩ := e
    by_cases h : k0 = k
    · simp [mapAssign, h]
    · simp [mapAssign, h, ih]

theorem mapKeys_mapAssign_of_mem {α : Type} (m : GoMap α) (k : String) (v : α)
    (hk : k ∈ mapKeys m) : mapKeys (mapAssign m k v) = mapKeys m := by
  induction m with
  | nil => simp [mapKeys] at hk
  | cons e rest ih =>
    obtain ⟨k0, v0⟩ := e
    by_cases h : k0 = k
    · simp [mapAssign, mapKeys, h]
    · have hk1 : k ∈ mapKeys rest := by
        simp only [mapKeys, List.map_cons, List.mem_cons] at hk
        rcases hk with hk | hk
        · exact absurd hk.symm h
        · exact hk
      have := ih hk1
      simp only [mapKeys] at this
      simp [mapAssign, mapKeys, h, this]

theorem mapKeys_mapAssign_of_not_mem {α : Type} (m : GoMap α) (k : String) (v : α)
    (hk : k ∉ mapKeys m) : mapKeys (mapAssign m k v) = mapKeys m ++ [k] := by
  induction m with
  | nil => simp [mapAssign, mapKeys]
  | cons e rest ih =>
    obtain ⟨k0, v0⟩ := e
    simp only [mapKeys, List.map_cons, List.mem_cons, not_or] at hk
    have h : ¬ k0 = k := fun h0 => hk.1 h0.symm
    have := ih hk.2
    simp only [mapKeys] at this
    simp [mapAssign, mapKeys, h, this]

theorem mem_mapKeys_mapAssign {α : Type} (m : GoMap α) (k k1 : String) (v : α) :
    k1 ∈ mapKeys (mapAssign m k v) ↔ k1 ∈ mapKeys m ∨ k1 = k := by
  by_cases hk : k ∈ mapKeys m
  · rw [mapKeys_mapAssign_of_mem m k v hk]
    constructor
    · exact Or.inl
    · rintro (h | h)
      · exact h
      · rw [h]; exact hk
  · rw [mapKeys_mapAssign_of_not_mem m k v hk]
    simp

/-- Assignments to two keys commute when the first key is present. -/
theorem mapAssign_comm_of_mem {α : Type} (m : GoMap α) (k k1 : String) (v v1 : α)
    (hne : k ≠ k1) (hk : k ∈ mapKeys m) :
    mapAssign (mapAssign m k1 v1) k v = mapAssign (mapAssign m k v) k1 v1 := by
  induction m with
  | nil => simp [mapKeys] at hk
  | cons e rest ih =>
    obtain ⟨k0, v0⟩ := e
    by_cases h : k0 = k
    · subst h
      simp [mapAssign, hne]
    · have hk1 : k ∈ mapKeys rest := by
        simp only [mapKeys, List.map_cons, List.mem_cons] at hk
        rcases hk with hk | hk
        · exact absurd hk.symm h
        · exact hk
      by_cases h1 : k0 = k1
      · subst h1
        simp [mapAssign, h, hne.symm]
      · simp [mapAssign, h, h1, ih hk1]

/-! ## `GraphDefinition` -/

/-- The loop `for _, az := range p.AZs` of `GraphDefinition` appends one
entry a zone. -/
theorem foldl_metrics (namePre : String) (azs : List String) :
    ∀ init : List Metrics,
      azs.foldl
        (fun metrics az => metrics ++ [{ Name := namePre ++ az, Label := az, Stacked := true }])
        init = init ++ zoneMetrics namePre azs := by
  induction azs with
  | nil => intro init; simp [zoneMetrics]
  | cons az rest ih =>
    intro init
    simp only [List.foldl_cons, ih, zoneMetrics, List.map_cons, List.append_assoc,
      List.singleton_append]

/-- The function `GraphDefinition` as two assignments. -/
theorem GraphDefinition_eq (p : ALBPlugin) (g : GoMap Graphs) :
    GraphDefinition p g =
      mapAssign
        (mapAssign g "alb.healthy_host_count"
          { Label := "ALB Healthy Host Count", Unit := "integer"
            Metrics := zoneMetrics "HealthyHostCount_" p.AZs })
        "alb.unhealthy_host_count"
        { Label := "ALB Unhealthy Host Count", Unit := "integer"
          Metrics := zoneMetrics "UnHealthyHostCount_" p.AZs } := by
  have hne : ¬ "alb.unhealthy_host_count" = "alb.healthy_host_count" := by decide
  simp only [GraphDefinition, List.foldl_cons, List.foldl_nil, foldl_metrics, List.nil_append,
    if_true, hne, if_false]

/-- C4: whatever the current value of `graphdef`, the map `GraphDefinition`
returns has under `alb.healthy_host_count` and `alb.unhealthy_host_count`
one metric entry a zone, in the order of the zone list, named
`HealthyHostCount_` (respectively `UnHealthyHostCount_`) followed by the
zone, labelled with the zone and stacked; an empty zone list gives empty
metric lists. -/
theorem schema_zone_metrics (p : ALBPlugin) (g : GoMap Graphs) :
    (∃ gr, mapLookup (GraphDefinition p g) "alb.healthy_host_count" = some gr ∧
      gr.Metrics = p.AZs.map
        (fun z => { Name := "HealthyHostCount_" ++ z, Label := z, Stacked := true }) ∧
      gr.Metrics.length = p.AZs.length) ∧
    (∃ gr, mapLookup (GraphDefinition p g) "alb.unhealthy_host_count" = some gr ∧
      gr.Metrics = p.AZs.map
        (fun z => { Name := "UnHealthyHostCount_" ++ z, Label := z, Stacked := true }) ∧
      gr.Metrics.length = p.AZs.length) ∧
    (∃ gr, mapLookup (GraphDefinition { p with AZs := [] } g) "alb.healthy_host_count"
        = some gr ∧ gr.Metrics = []) ∧
    (∃ gr, mapLookup (GraphDefinition { p with AZs := [] } g) "alb.unhealthy_host_count"
        = some gr ∧ gr.Metrics = []) := by
  have hne : "alb.unhealthy_host_count" ≠ "alb.healthy_host_count" := by decide
  have hh : ∀ p : ALBPlugin, mapLookup (GraphDefinition p g) "alb.healthy_host_count" =
      some { Label := "ALB Healthy Host Count", Unit := "integer"
             Metrics := zoneMetrics "HealthyHostCount_" p.AZs } := by
    intro p
    rw [GraphDefinition_eq, mapLookup_mapAssign_of_ne _ _ _ _ hne]
    exact mapLookup_mapAssign_self _ _ _
  have hu : ∀ p : ALBPlugin, mapLookup (GraphDefinition p g) "alb.unhealthy_host_count" =
      some { Label := "ALB Unhealthy Host Count", Unit := "integer"
             Metrics := zoneMetrics "UnHealthyHostCount_" p.AZs } := by
    intro p
    rw [GraphDefinition_eq]
    exact mapLookup_mapAssign_self _ _ _
  exact ⟨⟨_, hh p, rfl, by simp [zoneMetrics]⟩, ⟨_, hu p, rfl, by simp [zoneMetrics]⟩,
    ⟨_, hh _, rfl⟩, ⟨_, hu _, rfl⟩⟩

/-- C5: calling `GraphDefinition` with one zone list and then with another
gives the map that calling it with the second list alone gives, from the
initial `graphdef` as from any other value of the variable; the two
dynamic entries hold the metrics of the second list, and no more. -/
theorem schema_rebuilt (p1 p2 : ALBPlugin) (g : GoMap Graphs) :
    GraphDefinition p2 (GraphDefinition p1 g) = GraphDefinition p2 g ∧
    GraphDefinition p2 (GraphDefinition p1 graphdef) = GraphDefinition p2 graphdef ∧
    mapLookup (GraphDefinition p2 (GraphDefinition p1 graphdef)) "alb.healthy_host_count" =
      some { Label := "ALB Healthy Host Count", Unit := "integer"
             Metrics := p2.AZs.map
              (fun z => { Name := "HealthyHostCount_" ++ z, Label := z, Stacked := true }) } ∧
    mapLookup (GraphDefinition p2 (GraphDefinition p1 graphdef)) "alb.unhealthy_host_count" =
      some { Label := "ALB Unhealthy Host Count", Unit := "integer"
             Metrics := p2.AZs.map
              (fun z => { Name := "UnHealthyHostCount_" ++ z, Label := z, Stacked := true }) } := by
  have hne : "alb.unhealthy_host_count" ≠ "alb.healthy_host_count" := by decide
  have hgen : ∀ g : GoMap Graphs,
      GraphDefinition p2 (GraphDefinition p1 g) = GraphDefinition p2 g := by
    intro g
    simp only [GraphDefinition_eq]
    rw [mapAssign_comm_of_mem _ _ _ _ _ hne.symm
      (by rw [mem_mapKeys_mapAssign]; exact Or.inr rfl)]
    rw [mapAssign_mapAssign_self, mapAssign_mapAssign_self]
  refine ⟨hgen g, hgen graphdef, ?_, ?_⟩
  · rw [hgen, GraphDefinition_eq, mapLookup_mapAssign_of_ne _ _ _ _ hne]
    exact mapLookup_mapAssign_self _ _ _
  · rw [hgen, GraphDefinition_eq]
    exact mapLookup_mapAssign_self _ _ _

/-! ## `FetchMetrics`: the queries of a cycle -/

theorem foldl_foldl_flatMap {α β γ : Type} (f : β → γ → β) (g : α → List γ) (l : List α) :
    ∀ b : β, l.foldl (fun acc a => (g a).foldl f acc) b = (l.flatMap g).foldl f b := by
  induction l with
  | nil => intro b; rfl
  | cons a rest ih =>
    intro b
    simp only [List.foldl_cons, List.flatMap_cons, List.foldl_append, ih]

/-- The function `FetchMetrics` runs the queries of `queryPlan` in order. -/
theorem FetchMetrics_eq {σ V : Type} [Zero V] (w : World σ V) (p : ALBPlugin) (s : σ) :
    FetchMetrics w p s =
      ((((queryPlan p).foldl (runQuery w) ([], s)).1, none),
        ((queryPlan p).foldl (runQuery w) ([], s)).2) := by
  have h0 : FetchMetrics w p s =
      (((List.foldl (runQuery w)
          (List.foldl (fun acc az => List.foldl (runQuery w) acc (zoneQueries p az))
            ([], s) p.AZs)
          (balancerQueries p)).1, none),
       (List.foldl (runQuery w)
          (List.foldl (fun acc az => List.foldl (runQuery w) acc (zoneQueries p az))
            ([], s) p.AZs)
          (balancerQueries p)).2) := rfl
  rw [h0, foldl_foldl_flatMap, queryPlan, List.foldl_append]

theorem zoneDims_eq (p : ALBPlugin) (az : String) :
    zoneDims p az = { Name := "AvailabilityZone", Value := az } :: namedDims p := by
  unfold zoneDims namedDims
  by_cases h1 : p.Lbname = "" <;> by_cases h2 : p.Tgname = "" <;> simp [h1, h2]

theorem glbDims_eq (p : ALBPlugin) : glbDims p = namedDims p := by
  unfold glbDims namedDims
  by_cases h1 : p.Lbname = "" <;> by_cases h2 : p.Tgname = "" <;> simp [h1, h2]

/-- A run of `getLastPoint` in the journaled world: the result and the state
of the plain run, and one call more in the journal. -/
theorem getLastPoint_logged {σ V : Type} [Zero V] (w : World σ V) (q : Query) (s : σ)
    (log : List (Call V)) :
    getLastPoint w.logged q.dims q.met q.sTyp (s, log) =
      ((getLastPoint w q.dims q.met q.sTyp s).1,
        ((getLastPoint w q.dims q.met q.sTyp s).2, log ++ [callOf w q s])) := by
  apply Prod.ext
  · rw [getLastPoint_fst, getLastPoint_fst]
    rfl
  · rw [getLastPoint_snd]
    show _ = ((getLastPoint w q.dims q.met q.sTyp s).2, log ++ [callOf w q s])
    rw [getLastPoint_snd]
    rfl

/-- The result of `getLastPoint` is a value exactly when the call succeeded
with a datapoint. -/
theorem getLastPoint_ok_iff {σ V : Type} [Zero V] (w : World σ V) (q : Query) (s : σ) :
    (∃ v, (getLastPoint w q.dims q.met q.sTyp s).1 = .ok v) ↔ (callOf w q s).succeeded := by
  rw [getLastPoint_fst]
  unfold Call.succeeded callOf
  simp only
  split
  · rename_i err h
    simp [h]
  · rename_i dps h
    by_cases hlen : dps.length = 0
    · have : dps = [] := List.length_eq_zero.mp hlen
      simp [h, this]
    · have : dps ≠ [] := fun hnil => hlen (by rw [hnil]; rfl)
      simp [h, hlen, this]

theorem runQuery_logged {σ V : Type} [Zero V] (w : World σ V) (q : Query)
    (stat : GoMap V) (s : σ) (log : List (Call V)) :
    runQuery w.logged (stat, (s, log)) q =
      ((runQuery w (stat, s) q).1, ((runQuery w (stat, s) q).2, log ++ [callOf w q s])) := by
  unfold runQuery
  simp only [getLastPoint_logged]
  rcases h : (getLastPoint w q.dims q.met q.sTyp s) with ⟨r, s1⟩
  cases r <;> rfl

theorem runQuery_snd {σ V : Type} [Zero V] (w : World σ V) (q : Query) (acc : GoMap V × σ) :
    (runQuery w acc q).2 = (getLastPoint w q.dims q.met q.sTyp acc.2).2 := by
  unfold runQuery
  rcases h : (getLastPoint w q.dims q.met q.sTyp acc.2) with ⟨r, s1⟩
  cases r <;> rfl

theorem mem_mapKeys_runQuery {σ V : Type} [Zero V] (w : World σ V) (q : Query)
    (acc : GoMap V × σ) (k : String) :
    k ∈ mapKeys (runQuery w acc q).1 ↔
      k ∈ mapKeys acc.1 ∨ (k = q.key ∧ (callOf w q acc.2).succeeded) := by
  rw [← getLastPoint_ok_iff]
  unfold runQuery
  rcases h : (getLastPoint w q.dims q.met q.sTyp acc.2) with ⟨r, s1⟩
  cases r with
  | error e => simp
  | ok v => simp [mem_mapKeys_mapAssign]

/-- Running a plan in the journaled world gives the map and the state of the
plain run and appends the calls of the plan to the journal. -/
theorem foldl_runQuery_logged {σ V : Type} [Zero V] (w : World σ V) (qs : List Query) :
    ∀ (stat : GoMap V) (s : σ) (log : List (Call V)),
      qs.foldl (runQuery w.logged) (stat, (s, log)) =
        ((qs.foldl (runQuery w) (stat, s)).1,
          ((qs.foldl (runQuery w) (stat, s)).2, log ++ planCalls w qs s)) := by
  induction qs with
  | nil => intro stat s log; simp [planCalls]
  | cons q rest ih =>
    intro stat s log
    rw [List.foldl_cons, runQuery_logged, ih, List.foldl_cons]
    have hs : (runQuery w (stat, s) q).2 = (getLastPoint w q.dims q.met q.sTyp s).2 :=
      runQuery_snd w q (stat, s)
    have hpair : ((runQuery w (stat, s) q).1, (getLastPoint w q.dims q.met q.sTyp s).2) =
        runQuery w (stat, s) q := by rw [← hs]
    simp only [planCalls, List.append_assoc, List.singleton_append, hs, hpair]

/-- The keys of the map after a plan: the keys before it and the keys of the
calls that succeeded. -/
theorem mem_mapKeys_foldl_runQuery {σ V : Type} [Zero V] (w : World σ V) (qs : List Query)
    (hkey : ∀ q ∈ qs, ∀ s, (callOf w q s).key = q.key) :
    ∀ (acc : GoMap V × σ) (k : String),
      k ∈ mapKeys (qs.foldl (runQuery w) acc).1 ↔
        k ∈ mapKeys acc.1 ∨ ∃ c ∈ planCalls w qs acc.2, c.key = k ∧ c.succeeded := by
  induction qs with
  | nil => intro acc k; simp [planCalls]
  | cons q rest ih =>
    intro acc k
    have hrest : ∀ q ∈ rest, ∀ s, (callOf w q s).key = q.key :=
      fun q hq => hkey q (List.mem_cons_of_mem _ hq)
    have hq : (callOf w q acc.2).key = q.key := hkey q (List.mem_cons_self _ _) acc.2
    rw [List.foldl_cons, ih hrest, mem_mapKeys_runQuery, runQuery_snd]
    simp only [planCalls, List.mem_cons, exists_eq_or_imp, hq]
    constructor
    · rintro ((h | ⟨h1, h2⟩) | h)
      · exact Or.inl h
      · exact Or.inr (Or.inl ⟨h1.symm, h2⟩)
      · exact Or.inr (Or.inr h)
    · rintro (h | ⟨h1, h2⟩ | h)
      · exact Or.inl (Or.inl h)
      · exact Or.inl (Or.inr ⟨h1.symm, h2⟩)
      · exact Or.inr h

/-! ## Keys -/

theorem append_inj_right (a x y : String) (h : a ++ x = a ++ y) : x = y := by
  have hd := congrArg String.data h
  simp only [String.data_append] at hd
  exact String.ext (List.append_cancel_left hd)

/-- The first two characters of a key. -/
theorem take_two_append (a z : String) (ha : 2 ≤ a.data.length) :
    (a ++ z).data.take 2 = a.data.take 2 := by
  rw [String.data_append, List.take_append_of_le_length ha]

theorem healthy_key (z : String) : "HealthyHostCount" ++ "_" ++ z = "HealthyHostCount_" ++ z := by
  apply String.ext
  simp only [String.data_append]
  rfl

theorem unhealthy_key (z : String) :
    "UnHealthyHostCount" ++ "_" ++ z = "UnHealthyHostCount_" ++ z := by
  apply String.ext
  simp only [String.data_append]
  rfl

theorem healthy_ne_unhealthy (x y : String) :
    "HealthyHostCount_" ++ x ≠ "UnHealthyHostCount_" ++ y := by
  intro h
  have h2 := congrArg (fun s : String => s.data.take 2) h
  simp only [take_two_append _ _ (by decide : 2 ≤ "HealthyHostCount_".data.length),
    take_two_append _ _ (by decide : 2 ≤ "UnHealthyHostCount_".data.length)] at h2
  exact absurd h2 (by decide)

theorem zone_key_not_balancer (z k : String)
    (hk : k ∈ ["TargetResponseTime", "HTTPCode_Target_2XX_Count", "HTTPCode_Target_3XX_Count",
      "HTTPCode_Target_4XX_Count", "HTTPCode_Target_5XX_Count"]) :
    "HealthyHostCount_" ++ z ≠ k ∧ "UnHealthyHostCount_" ++ z ≠ k := by
  have hT : ∀ (a : String), 2 ≤ a.data.length → a.data.take 2 ≠ k.data.take 2 → a ++ z ≠ k := by
    intro a ha hne h
    apply hne
    rw [← h, take_two_append a z ha]
  simp only [List.mem_cons, List.mem_singleton, List.not_mem_nil, or_false] at hk
  rcases hk with rfl | rfl | rfl | rfl | rfl <;>
    exact ⟨hT _ (by decide) (by decide), hT _ (by decide) (by decide)⟩

theorem mem_queryPlan (p : ALBPlugin) (q : Query) :
    q ∈ queryPlan p ↔ (∃ z ∈ p.AZs, q ∈ zoneQueries p z) ∨ q ∈ balancerQueries p := by
  simp [queryPlan, List.mem_flatMap]

/-- The key a query of the plan is stored under is the key of its call. -/
theorem callOf_key {σ V : Type} (w : World σ V) (p : ALBPlugin) :
    ∀ q ∈ queryPlan p, ∀ s, (callOf w q s).key = q.key := by
  intro q hq s
  have hnamed : ∀ c : Call V, c.1.Dimensions = namedDims p → c.key = c.1.MetricName := by
    intro c hc
    unfold Call.key
    rw [hc]
    unfold namedDims
    by_cases h1 : p.Lbname = "" <;> by_cases h2 : p.Tgname = "" <;> simp [h1, h2]
  rcases (mem_queryPlan p q).mp hq with ⟨z, _, hz⟩ | hb
  · simp only [zoneQueries, List.mem_cons, List.mem_singleton, List.not_mem_nil, or_false] at hz
    rcases hz with rfl | rfl <;>
      simp [Call.key, callOf, statisticsRequest, zoneDims_eq]
  · simp only [balancerQueries, List.mem_cons, List.mem_singleton, List.not_mem_nil,
      or_false] at hb
    rcases hb with rfl | rfl | rfl | rfl | rfl <;>
      exact hnamed _ (glbDims_eq p)

theorem callShapes_planCalls {σ V : Type} [Zero V] (w : World σ V) (qs : List Query) :
    ∀ s : σ, callShapes (planCalls w qs s) = qs.map (fun q => (q.met, [q.sTyp.String], q.dims)) := by
  induction qs with
  | nil => intro s; rfl
  | cons q rest ih =>
    intro s
    have := ih (getLastPoint w q.dims q.met q.sTyp s).2
    simp only [callShapes] at this
    simp only [planCalls, callShapes, List.map_cons, this, callOf, statisticsRequest]

/-- The journal of a run of `FetchMetrics`. -/
theorem FetchMetrics_logged {σ V : Type} [Zero V] (w : World σ V) (p : ALBPlugin) (s : σ) :
    FetchMetrics w.logged p (s, []) =
      ((FetchMetrics w p s).1, ((FetchMetrics w p s).2, planCalls w (queryPlan p) s)) := by
  rw [FetchMetrics_eq, FetchMetrics_eq, foldl_runQuery_logged]
  simp

/-- C8: the calls `FetchMetrics` makes are, in order, for each zone `z` of
the zone list `HealthyHostCount` and `UnHealthyHostCount` with the
aggregation `Average` and the dimensions `AvailabilityZone = z` followed by
the dimensions of the configured names, then `TargetResponseTime` with
`Average` and the four `HTTPCode_Target_*_Count` with `Sum`, on the
dimensions of the configured names alone. -/
theorem fetch_call_shapes {σ V : Type} [Zero V] (w : World σ V) (p : ALBPlugin) (s : σ) :
    callShapes (FetchMetrics w.logged p (s, [])).2.2 =
      p.AZs.flatMap (fun z =>
        [ ("HealthyHostCount", ["Average"],
            { Name := "AvailabilityZone", Value := z } :: namedDims p),
          ("UnHealthyHostCount", ["Average"],
            { Name := "AvailabilityZone", Value := z } :: namedDims p) ]) ++
      [ ("TargetResponseTime", ["Average"], namedDims p),
        ("HTTPCode_Target_2XX_Count", ["Sum"], namedDims p),
        ("HTTPCode_Target_3XX_Count", ["Sum"], namedDims p),
        ("HTTPCode_Target_4XX_Count", ["Sum"], namedDims p),
        ("HTTPCode_Target_5XX_Count", ["Sum"], namedDims p) ] := by
  have hAve : statType.String stAve = "Average" := by decide
  have hSum : statType.String stSum = "Sum" := by decide
  rw [FetchMetrics_logged, callShapes_planCalls]
  simp only [queryPlan, List.map_append, List.map_flatMap, zoneQueries, balancerQueries,
    List.map_cons, List.map_nil, zoneDims_eq, glbDims_eq, hAve, hSum]

/-- The keys of the plan, zone by zone, then the keys of the balancer. -/
theorem queryPlan_keys (p : ALBPlugin) :
    (queryPlan p).map Query.key =
      p.AZs.flatMap (fun z => ["HealthyHostCount_" ++ z, "UnHealthyHostCount_" ++ z]) ++
        balancerKeys := by
  simp only [queryPlan, List.map_append, List.map_flatMap, zoneQueries, balancerQueries,
    List.map_cons, List.map_nil, healthy_key, unhealthy_key, balancerKeys]

theorem mem_zoneKeys (azs : List String) (k : String) :
    k ∈ azs.flatMap (fun z => ["HealthyHostCount_" ++ z, "UnHealthyHostCount_" ++ z]) ↔
      ∃ z ∈ azs, k = "HealthyHostCount_" ++ z ∨ k = "UnHealthyHostCount_" ++ z := by
  simp [List.mem_flatMap]

/-- The keys of the calls of a plan are the keys of its queries, whatever
the service answers. -/
theorem planCalls_keys {σ V : Type} [Zero V] (w : World σ V) (qs : List Query)
    (hkey : ∀ q ∈ qs, ∀ s, (callOf w q s).key = q.key) :
    ∀ s : σ, (planCalls w qs s).map Call.key = qs.map Query.key := by
  induction qs with
  | nil => intro s; rfl
  | cons q rest ih =>
    intro s
    have hrest : ∀ q ∈ rest, ∀ s, (callOf w q s).key = q.key :=
      fun q hq => hkey q (List.mem_cons_of_mem _ hq)
    simp only [planCalls, List.map_cons, ih hrest, hkey q (List.mem_cons_self _ _) s]

/-- C2: whatever the service answers, `FetchMetrics` returns a nil error and
makes every call of the cycle, two for each zone and five for the
balancer, none being skipped after a failure; the map is the same whether
or not the calls are journaled, and a key is in the map exactly when some
call made for that key succeeded with at least one datapoint: a call that
errors or returns no datapoint adds no key and removes none. -/
theorem fetched_key_iff_succeeded {σ V : Type} [Zero V] (w : World σ V) (p : ALBPlugin) (s : σ) :
    (FetchMetrics w p s).1.2 = none ∧
    (FetchMetrics w.logged p (s, [])).1 = (FetchMetrics w p s).1 ∧
    (FetchMetrics w.logged p (s, [])).2.2.map Call.key =
      p.AZs.flatMap (fun z => ["HealthyHostCount_" ++ z, "UnHealthyHostCount_" ++ z]) ++
        ["TargetResponseTime", "HTTPCode_Target_2XX_Count", "HTTPCode_Target_3XX_Count",
          "HTTPCode_Target_4XX_Count", "HTTPCode_Target_5XX_Count"] ∧
    (FetchMetrics w.logged p (s, [])).2.2.length = 2 * p.AZs.length + 5 ∧
    (∀ c ∈ (FetchMetrics w.logged p (s, [])).2.2, c.succeeded →
      c.key ∈ mapKeys (FetchMetrics w p s).1.1) ∧
    (∀ k, k ∈ mapKeys (FetchMetrics w p s).1.1 ↔
      ∃ c ∈ (FetchMetrics w.logged p (s, [])).2.2, c.key = k ∧ c.succeeded) := by
  have hiff : ∀ k, k ∈ mapKeys (FetchMetrics w p s).1.1 ↔
      ∃ c ∈ planCalls w (queryPlan p) s, c.key = k ∧ c.succeeded := by
    intro k
    rw [FetchMetrics_eq]
    have := mem_mapKeys_foldl_runQuery w (queryPlan p) (callOf_key w p) (([] : GoMap V), s) k
    simpa [mapKeys] using this
  have hkeys : (planCalls w (queryPlan p) s).map Call.key =
      p.AZs.flatMap (fun z => ["HealthyHostCount_" ++ z, "UnHealthyHostCount_" ++ z]) ++
        balancerKeys := by
    rw [planCalls_keys w (queryPlan p) (callOf_key w p) s, queryPlan_keys]
  have hlen : (planCalls w (queryPlan p) s).length = 2 * p.AZs.length + 5 := by
    have h1 : (planCalls w (queryPlan p) s).length =
        ((planCalls w (queryPlan p) s).map Call.key).length := by rw [List.length_map]
    have hz : ∀ azs : List String,
        (azs.flatMap
          (fun z => ["HealthyHostCount_" ++ z, "UnHealthyHostCount_" ++ z])).length
          = 2 * azs.length := by
      intro azs
      induction azs with
      | nil => rfl
      | cons z rest ih =>
        rw [List.flatMap_cons, List.length_append, ih]
        simp only [List.length_cons, List.length_nil]
        omega
    rw [h1, hkeys, List.length_append, hz]
    rfl
  rw [FetchMetrics_logged]
  refine ⟨by rw [FetchMetrics_eq], rfl, hkeys, hlen, ?_, hiff⟩
  intro c hc hsucc
  exact (hiff c.key).mpr ⟨c, hc, rfl, hsucc⟩

/-- Witness of C2: with two zones and a service that fails on every
`HealthyHostCount` request, the nine calls are all made and the map holds
the seven keys of the calls that succeeded. -/
theorem fetched_key_iff_succeeded_witness :
    ((FetchMetrics (worldFailingOn "HealthyHostCount") pluginAB ()).1.2 = none ∧
      (FetchMetrics (worldFailingOn "HealthyHostCount").logged pluginAB ((), [])).1 =
        (FetchMetrics (worldFailingOn "HealthyHostCount") pluginAB ()).1 ∧
      (FetchMetrics (worldFailingOn "HealthyHostCount").logged pluginAB ((), [])).2.2.map
          Call.key =
        pluginAB.AZs.flatMap
            (fun z => ["HealthyHostCount_" ++ z, "UnHealthyHostCount_" ++ z]) ++
          ["TargetResponseTime", "HTTPCode_Target_2XX_Count", "HTTPCode_Target_3XX_Count",
            "HTTPCode_Target_4XX_Count", "HTTPCode_Target_5XX_Count"] ∧
      (FetchMetrics (worldFailingOn "HealthyHostCount").logged pluginAB ((), [])).2.2.length =
        2 * pluginAB.AZs.length + 5 ∧
      (∀ c ∈ (FetchMetrics (worldFailingOn "HealthyHostCount").logged pluginAB ((), [])).2.2,
        c.succeeded →
          c.key ∈ mapKeys (FetchMetrics (worldFailingOn "HealthyHostCount") pluginAB ()).1.1) ∧
      (∀ k, k ∈ mapKeys (FetchMetrics (worldFailingOn "HealthyHostCount") pluginAB ()).1.1 ↔
        ∃ c ∈ (FetchMetrics (worldFailingOn "HealthyHostCount").logged pluginAB ((), [])).2.2,
          c.key = k ∧ c.succeeded)) ∧
    (FetchMetrics (worldFailingOn "HealthyHostCount").logged pluginAB ((), [])).2.2.length = 9 ∧
    mapKeys (FetchMetrics (worldFailingOn "HealthyHostCount") pluginAB ()).1.1 =
      ["UnHealthyHostCount_a", "UnHealthyHostCount_b", "TargetResponseTime",
        "HTTPCode_Target_2XX_Count", "HTTPCode_Target_3XX_Count",
        "HTTPCode_Target_4XX_Count", "HTTPCode_Target_5XX_Count"] :=
  ⟨fetched_key_iff_succeeded (worldFailingOn "HealthyHostCount") pluginAB (),
    by decide, by decide⟩

/-- Distinct zones give distinct keys. -/
theorem nodup_zoneKeys (azs : List String) (h : azs.Nodup) :
    (azs.flatMap (fun z => ["HealthyHostCount_" ++ z, "UnHealthyHostCount_" ++ z])).Nodup := by
  induction azs with
  | nil => simp
  | cons z rest ih =>
    have hz : z ∉ rest := (List.nodup_cons.mp h).1
    have hrest := ih (List.nodup_cons.mp h).2
    rw [List.flatMap_cons]
    show (("HealthyHostCount_" ++ z) :: ("UnHealthyHostCount_" ++ z) :: _).Nodup
    refine List.nodup_cons.mpr ⟨?_, List.nodup_cons.mpr ⟨?_, hrest⟩⟩
    · intro hmem
      rcases List.mem_cons.mp hmem with heq | hmem
      · exact healthy_ne_unhealthy z z heq
      · obtain ⟨y, hy, hk | hk⟩ := (mem_zoneKeys rest _).mp hmem
        · exact hz (append_inj_right _ _ _ hk ▸ hy)
        · exact healthy_ne_unhealthy z y hk
    · intro hmem
      obtain ⟨y, hy, hk | hk⟩ := (mem_zoneKeys rest _).mp hmem
      · exact healthy_ne_unhealthy y z hk.symm
      · exact hz (append_inj_right _ _ _ hk ▸ hy)

/-- The keys of the plan are distinct when the zones are. -/
theorem nodup_queryPlan_keys (p : ALBPlugin) (h : p.AZs.Nodup) :
    ((queryPlan p).map Query.key).Nodup := by
  rw [queryPlan_keys]
  refine List.Nodup.append (nodup_zoneKeys p.AZs h) (by decide) ?_
  intro k hk hb
  obtain ⟨z, _, hz | hz⟩ := (mem_zoneKeys p.AZs k).mp hk
  · exact (zone_key_not_balancer z k hb).1 hz.symm
  · exact (zone_key_not_balancer z k hb).2 hz.symm

theorem mem_mapKeys_foldl_runQuery_plan {σ V : Type} [Zero V] (w : World σ V)
    (qs : List Query) :
    ∀ (acc : GoMap V × σ) (k : String), k ∈ mapKeys (qs.foldl (runQuery w) acc).1 →
      k ∈ mapKeys acc.1 ∨ k ∈ qs.map Query.key := by
  induction qs with
  | nil => intro acc k h; exact Or.inl h
  | cons q rest ih =>
    intro acc k h
    rw [List.foldl_cons] at h
    rcases ih _ k h with h1 | h1
    · rcases (mem_mapKeys_runQuery w q acc k).mp h1 with h2 | ⟨h2, _⟩
      · exact Or.inl h2
      · exact Or.inr (by rw [h2]; simp)
    · exact Or.inr (by simp only [List.map_cons, List.mem_cons]; exact Or.inr h1)

/-- When every call succeeds, the plan stores one key a query, in order. -/
theorem mapKeys_foldl_runQuery_of_succeeded {σ V : Type} [Zero V] (w : World σ V)
    (qs : List Query) :
    ∀ (acc : GoMap V × σ), (∀ c ∈ planCalls w qs acc.2, c.succeeded) →
      (mapKeys acc.1 ++ qs.map Query.key).Nodup →
      mapKeys (qs.foldl (runQuery w) acc).1 = mapKeys acc.1 ++ qs.map Query.key := by
  induction qs with
  | nil => intro acc _ _; simp
  | cons q rest ih =>
    intro acc hok hnd
    have hq : (callOf w q acc.2).succeeded := hok _ (by simp [planCalls])
    obtain ⟨v, hv⟩ := (getLastPoint_ok_iff w q acc.2).mpr hq
    have hnot : q.key ∉ mapKeys acc.1 := by
      intro hmem
      rw [List.map_cons] at hnd
      exact (List.nodup_append.mp hnd).2.2 hmem (List.mem_cons_self _ _)
    have hrun : (runQuery w acc q).1 = mapAssign acc.1 q.key v := by
      unfold runQuery
      rcases h : getLastPoint w q.dims q.met q.sTyp acc.2 with ⟨r, s1⟩
      rw [h] at hv
      simp only at hv
      subst hv
      rfl
    have hkeys : mapKeys (runQuery w acc q).1 = mapKeys acc.1 ++ [q.key] := by
      rw [hrun, mapKeys_mapAssign_of_not_mem _ _ _ hnot]
    rw [List.foldl_cons, ih (runQuery w acc q), hkeys]
    · simp
    · intro c hc
      apply hok
      rw [runQuery_snd] at hc
      simp only [planCalls, List.mem_cons]
      exact Or.inr hc
    · rw [hkeys]
      simpa using hnd

/-- C3: with pairwise distinct zones and every call of the cycle succeeding
with at least one datapoint, the keys of the map `FetchMetrics` returns are
the two keys `HealthyHostCount_z` and `UnHealthyHostCount_z` of each zone
`z` and the five names of the balancer metrics, without collision: the map
has twice the number of zones plus five entries. -/
theorem fetched_key_set {σ V : Type} [Zero V] (w : World σ V) (p : ALBPlugin) (s : σ)
    (hzones : p.AZs.Nodup)
    (hok : ∀ c ∈ (FetchMetrics w.logged p (s, [])).2.2, c.succeeded) :
    (∀ k, k ∈ mapKeys (FetchMetrics w p s).1.1 ↔
      (∃ z ∈ p.AZs, k = "HealthyHostCount_" ++ z ∨ k = "UnHealthyHostCount_" ++ z) ∨
        k ∈ ["TargetResponseTime", "HTTPCode_Target_2XX_Count", "HTTPCode_Target_3XX_Count",
          "HTTPCode_Target_4XX_Count", "HTTPCode_Target_5XX_Count"]) ∧
    (mapKeys (FetchMetrics w p s).1.1).Nodup ∧
    (FetchMetrics w p s).1.1.length = 2 * p.AZs.length + 5 := by
  rw [FetchMetrics_logged] at hok
  have hkeys : mapKeys (FetchMetrics w p s).1.1 = (queryPlan p).map Query.key := by
    rw [FetchMetrics_eq]
    have := mapKeys_foldl_runQuery_of_succeeded w (queryPlan p) (([] : GoMap V), s) hok
      (by simpa [mapKeys] using nodup_queryPlan_keys p hzones)
    simpa [mapKeys] using this
  refine ⟨?_, ?_, ?_⟩
  · intro k
    rw [hkeys, queryPlan_keys, List.mem_append, mem_zoneKeys]
    rfl
  · rw [hkeys]
    exact nodup_queryPlan_keys p hzones
  · have hlen : (FetchMetrics w p s).1.1.length = (mapKeys (FetchMetrics w p s).1.1).length := by
      simp [mapKeys]
    rw [hlen, hkeys, List.length_map, queryPlan, List.length_append]
    have hz : ∀ azs : List String, (azs.flatMap (zoneQueries p)).length = 2 * azs.length := by
      intro azs
      induction azs with
      | nil => rfl
      | cons z rest ih =>
        rw [List.flatMap_cons, List.length_append, ih]
        simp only [zoneQueries, List.length_cons, List.length_nil]
        omega
    rw [hz]
    rfl

theorem succeeded_of_ok {V : Type} (req : GetMetricStatisticsRequest) (d : Datapoint V)
    (ds : List (Datapoint V)) : Call.succeeded (req, (.ok (d :: ds) : Except String _)) :=
  ⟨d :: ds, rfl, by simp⟩

/-- Witness of C3: two zones, every call answered with datapoints, nine
keys. -/
theorem fetched_key_set_witness :
    ((∀ k, k ∈ mapKeys (FetchMetrics (constWorld (.ok dpsTie)) pluginAB ()).1.1 ↔
      (∃ z ∈ pluginAB.AZs, k = "HealthyHostCount_" ++ z ∨ k = "UnHealthyHostCount_" ++ z) ∨
        k ∈ ["TargetResponseTime", "HTTPCode_Target_2XX_Count", "HTTPCode_Target_3XX_Count",
          "HTTPCode_Target_4XX_Count", "HTTPCode_Target_5XX_Count"]) ∧
    (mapKeys (FetchMetrics (constWorld (.ok dpsTie)) pluginAB ()).1.1).Nodup ∧
    (FetchMetrics (constWorld (.ok dpsTie)) pluginAB ()).1.1.length
      = 2 * pluginAB.AZs.length + 5) ∧
    (FetchMetrics (constWorld (.ok dpsTie)) pluginAB ()).1.1.length = 9 ∧
    mapKeys (FetchMetrics (constWorld (.ok dpsTie)) pluginAB ()).1.1 =
      ["HealthyHostCount_a", "UnHealthyHostCount_a", "HealthyHostCount_b",
        "UnHealthyHostCount_b", "TargetResponseTime", "HTTPCode_Target_2XX_Count",
        "HTTPCode_Target_3XX_Count", "HTTPCode_Target_4XX_Count",
        "HTTPCode_Target_5XX_Count"] :=
  ⟨fetched_key_set (constWorld (.ok dpsTie)) pluginAB () (by decide)
      (by
        intro c hc
        rw [FetchMetrics_logged] at hc
        have hall : ∀ (qs : List Query) (s : Unit),
            ∀ c ∈ planCalls (constWorld (.ok dpsTie)) qs s, c.succeeded := by
          intro qs
          induction qs with
          | nil => intro s c hc; cases hc
          | cons q rest ih =>
            intro s c hc
            rcases List.mem_cons.mp hc with h | h
            · rw [h]; exact succeeded_of_ok _ _ _
            · exact ih _ c h
        exact hall _ _ c hc),
    by decide, by decide⟩

/-! ## Keys and schema -/

theorem hasMetric_zone (p : ALBPlugin) (g : GoMap Graphs) (z : String) (hz : z ∈ p.AZs) :
    HasMetric (GraphDefinition p g) "alb.healthy_host_count" ("HealthyHostCount_" ++ z) ∧
    HasMetric (GraphDefinition p g) "alb.unhealthy_host_count" ("UnHealthyHostCount_" ++ z) := by
  have hne : "alb.unhealthy_host_count" ≠ "alb.healthy_host_count" := by decide
  have hh : mapLookup (GraphDefinition p g) "alb.healthy_host_count" =
      some { Label := "ALB Healthy Host Count", Unit := "integer"
             Metrics := zoneMetrics "HealthyHostCount_" p.AZs } := by
    rw [GraphDefinition_eq, mapLookup_mapAssign_of_ne _ _ _ _ hne]
    exact mapLookup_mapAssign_self _ _ _
  have hu : mapLookup (GraphDefinition p g) "alb.unhealthy_host_count" =
      some { Label := "ALB Unhealthy Host Count", Unit := "integer"
             Metrics := zoneMetrics "UnHealthyHostCount_" p.AZs } := by
    rw [GraphDefinition_eq]
    exact mapLookup_mapAssign_self _ _ _
  exact ⟨⟨_, hh, { Name := "HealthyHostCount_" ++ z, Label := z, Stacked := true },
      List.mem_map.mpr ⟨z, hz, rfl⟩, rfl⟩,
    ⟨_, hu, { Name := "UnHealthyHostCount_" ++ z, Label := z, Stacked := true },
      List.mem_map.mpr ⟨z, hz, rfl⟩, rfl⟩⟩

/-- The static graphs of the initial `graphdef` survive `GraphDefinition`. -/
theorem hasMetric_static (p : ALBPlugin) (grp k : String)
    (hh : grp ≠ "alb.healthy_host_count") (hu : grp ≠ "alb.unhealthy_host_count")
    (h : HasMetric graphdef grp k) : HasMetric (GraphDefinition p graphdef) grp k := by
  unfold HasMetric
  rw [GraphDefinition_eq, mapLookup_mapAssign_of_ne _ _ _ _ hu.symm,
    mapLookup_mapAssign_of_ne _ _ _ _ hh.symm]
  exact h

/-- C10: every key of the map `FetchMetrics` returns is the name of a metric
entry of the schema `GraphDefinition` returns for the same plugin from the
initial `graphdef`: a zone key under `alb.healthy_host_count` or
`alb.unhealthy_host_count`, `TargetResponseTime` under
`alb.targetresponsetime`, an `HTTPCode_Target_*_Count` key under
`alb.http_target`. -/
theorem schema_covers_keys {σ V : Type} [Zero V] (w : World σ V) (p : ALBPlugin)
    (s : σ) :
    ∀ k ∈ mapKeys (FetchMetrics w p s).1.1,
      ((∃ z ∈ p.AZs, k = "HealthyHostCount_" ++ z) ∧
        HasMetric (GraphDefinition p graphdef) "alb.healthy_host_count" k) ∨
      ((∃ z ∈ p.AZs, k = "UnHealthyHostCount_" ++ z) ∧
        HasMetric (GraphDefinition p graphdef) "alb.unhealthy_host_count" k) ∨
      (k = "TargetResponseTime" ∧
        HasMetric (GraphDefinition p graphdef) "alb.targetresponsetime" k) ∨
      (k ∈ ["HTTPCode_Target_2XX_Count", "HTTPCode_Target_3XX_Count",
          "HTTPCode_Target_4XX_Count", "HTTPCode_Target_5XX_Count"] ∧
        HasMetric (GraphDefinition p graphdef) "alb.http_target" k) := by
  intro k hk
  rw [FetchMetrics_eq] at hk
  rcases mem_mapKeys_foldl_runQuery_plan w (queryPlan p) (([] : GoMap V), s) k hk with h | h
  · simp [mapKeys] at h
  · rw [queryPlan_keys, List.mem_append, mem_zoneKeys] at h
    rcases h with ⟨z, hz, rfl | rfl⟩ | h
    · exact Or.inl ⟨⟨z, hz, rfl⟩, (hasMetric_zone p graphdef z hz).1⟩
    · exact Or.inr (Or.inl ⟨⟨z, hz, rfl⟩, (hasMetric_zone p graphdef z hz).2⟩)
    · simp only [balancerKeys, List.mem_cons, List.mem_singleton, List.not_mem_nil,
        or_false] at h
      rcases h with rfl | h
      · refine Or.inr (Or.inr (Or.inl ⟨rfl, ?_⟩))
        exact hasMetric_static p _ _ (by decide) (by decide)
          (by simp [HasMetric, graphdef, mapLookup])
      · refine Or.inr (Or.inr (Or.inr ⟨by simpa using h, ?_⟩))
        apply hasMetric_static p _ _ (by decide) (by decide)
        rcases h with rfl | rfl | rfl | rfl <;> simp [HasMetric, graphdef, mapLookup]

/-- Witness of C10: the key of the healthy hosts of zone `a`, from a cycle
in which every call is answered with datapoints. -/
theorem schema_covers_keys_witness :
    ((∃ z ∈ pluginAB.AZs, "HealthyHostCount_a" = "HealthyHostCount_" ++ z) ∧
        HasMetric (GraphDefinition pluginAB graphdef) "alb.healthy_host_count"
          "HealthyHostCount_a") ∨
      ((∃ z ∈ pluginAB.AZs, "HealthyHostCount_a" = "UnHealthyHostCount_" ++ z) ∧
        HasMetric (GraphDefinition pluginAB graphdef) "alb.unhealthy_host_count"
          "HealthyHostCount_a") ∨
      ("HealthyHostCount_a" = "TargetResponseTime" ∧
        HasMetric (GraphDefinition pluginAB graphdef) "alb.targetresponsetime"
          "HealthyHostCount_a") ∨
      ("HealthyHostCount_a" ∈ ["HTTPCode_Target_2XX_Count", "HTTPCode_Target_3XX_Count",
          "HTTPCode_Target_4XX_Count", "HTTPCode_Target_5XX_Count"] ∧
        HasMetric (GraphDefinition pluginAB graphdef) "alb.http_target"
          "HealthyHostCount_a") :=
  schema_covers_keys (constWorld (.ok dpsTie)) pluginAB () "HealthyHostCount_a"
    (by decide)

end AwsAlb
